import Mathlib

/-!
Verification of the `one_wire` bus-master driver.

The driver's commands are embedded shallowly: a simulated bus is a record
holding the presence answer, an infinite stream of bits that the bus returns
to `read_bit`, a read cursor, and a trace of the events the master emitted
(reset pulses, written bits, delays).  Machine integers (`u8`, `u64`) are
`Nat` values; the `u64` operations of the search (`rom |= mask`,
`rom &= !mask`, `conflicts ^= mask`) are `Nat` bitwise operations, with the
one's complement of a mask written as `U64MAX ^^^ mask` exactly as it acts
on 64-bit words.  Fallible operations return `Except Error`.

The transport primitives (`reset`, `read_bit`, `write_bit`, `write_byte`,
`read_byte`, `read_bytes`, `write_bytes`, `wait`), the CRC module
(`crc8`, `check`), and the `Rom`/`Scratchpad` constructors live in crate
files that are not part of the sources at hand; they are modelled from the
spec (each such definition says so in its doc comment).  Everything else is
translated from `command.rs`, `error.rs`, `commands/rom.rs` and
`commands/memory.rs`.
-/

set_option maxRecDepth 4096

namespace OneWire

/-- Trace events emitted by the bus master: a reset pulse (together with the
presence answer sampled in the presence-detect window), a single written bit,
and a blocking microsecond delay. -/
inductive Event where
  | reset (presence : Bool)
  | writeBit (b : Bool)
  | wait (us : Nat)
  deriving DecidableEq, Repr

/-- Modelled from the spec: the simulated 1-Wire bus seen by the master.
`presence` is the answer sampled after a reset pulse, `stream` is the
sequence of bit levels the bus produces for successive `read_bit` slots,
`pos` is the index of the next read slot, and `events` is the trace of
master-driven events so far. -/
structure BusState where
  presence : Bool
  stream : Nat → Bool
  pos : Nat
  events : List Event

/-- Modelled from the spec: `reset()` drives the reset pulse and samples the
presence-detect window, returning whether at least one device asserted
presence. -/
def reset (s : BusState) : Bool × BusState :=
  (s.presence, { s with events := s.events ++ [Event.reset s.presence] })

/-- Modelled from the spec: `read_bit()` initiates one read time slot and
samples the line, consuming exactly one slot of the bus's bit stream. -/
def read_bit (s : BusState) : Bool × BusState :=
  (s.stream s.pos, { s with pos := s.pos + 1 })

/-- Modelled from the spec: `write_bit(bit)` drives one write time slot
encoding the given bit. -/
def write_bit (b : Bool) (s : BusState) : BusState :=
  { s with events := s.events ++ [Event.writeBit b] }

/-- Modelled from the spec: `wait(us)` blocks for the given number of
microseconds with no bus activity. -/
def wait (us : Nat) (s : BusState) : BusState :=
  { s with events := s.events ++ [Event.wait us] }

/-- Eight `write_bit` slots, least-significant bit first: each step writes
`byte & 0x01 == 0x01` and then shifts `byte` right by one, as in
`WriteByte::execute`. -/
def writeByteAux : Nat → Nat → BusState → BusState
  | 0, _, s => s
  | n + 1, byte, s => writeByteAux n (byte / 2) (write_bit (byte % 2 == 1) s)

/-- Modelled from the spec: `write_byte` composes 8 bit writes,
least-significant bit first (the same loop as the in-source
`WriteByte` command). -/
def write_byte (byte : Nat) (s : BusState) : BusState :=
  writeByteAux 8 byte s

/-- Modelled from the spec: `write_bytes` writes each byte in order (the same
loop as the in-source `WriteBytes` command). -/
def write_bytes : List Nat → BusState → BusState
  | [], s => s
  | b :: bs, s => write_bytes bs (write_byte b s)

/-- Eight `read_bit` slots assembled least-significant bit first: each step
shifts the accumulator right and sets bit 7 when the sampled bit is high, as
in `ReadByte::execute`. -/
def readByteAux : Nat → Nat → BusState → Nat × BusState
  | 0, byte, s => (byte, s)
  | n + 1, byte, s =>
    let r := read_bit s
    let byte := byte / 2
    let byte := if r.1 then byte ||| 0x80 else byte
    readByteAux n byte r.2

/-- Modelled from the spec: `read_byte` composes 8 bit reads,
least-significant bit first (the same loop as the in-source
`ReadByte` command). -/
def read_byte (s : BusState) : Nat × BusState :=
  readByteAux 8 0 s

/-- Modelled from the spec: `read_bytes` reads the given number of bytes in
order (the same loop as the in-source `ReadBytes` command). -/
def read_bytes : Nat → BusState → List Nat × BusState
  | 0, s => ([], s)
  | n + 1, s =>
    let r := read_byte s
    let rest := read_bytes n r.2
    (r.1 :: rest.1, rest.2)

/-- Error, from `error.rs`.  The `pin` payload is `Infallible`, embedded as
`Empty`. -/
inductive Error where
  | configurationRegister
  | notHigh
  | pin (e : Empty)
  | mismatchedFamilyCode
  | noAttachedDevices
  | mismatchedCrc (crc8 : Nat)
  | timeout
  | unexpectedResponse
  deriving DecidableEq, Repr

deriving instance DecidableEq for Except

/-- Modelled from the spec: one round of the reflected Dallas/Maxim CRC-8
(polynomial x^8+x^5+x^4+1, reversed representation 0x8C). -/
def crc8Step (c : Nat) : Nat :=
  if c % 2 = 1 then (c / 2) ^^^ 0x8C else c / 2

/-- Iterated CRC-8 rounds. -/
def crc8Rounds : Nat → Nat → Nat
  | 0, c => c
  | n + 1, c => crc8Rounds n (crc8Step c)

/-- Modelled from the spec: CRC-8 state update for one input byte (xor the
byte into the running value, then eight rounds). -/
def crc8Update (c b : Nat) : Nat :=
  crc8Rounds 8 (c ^^^ b)

/-- Modelled from the spec: running Dallas/Maxim CRC-8 over a byte sequence,
initial value 0. -/
def crc8 (bytes : List Nat) : Nat :=
  bytes.foldl crc8Update 0

/-- Modelled from the spec: `check(bytes)` computes the running CRC across
all bytes including the trailing CRC byte; the result must be zero for the
sequence to be accepted, and a mismatch carries the computed byte. -/
def check (bytes : List Nat) : Except Error Unit :=
  let c := crc8 bytes
  if c = 0 then .ok () else .error (.mismatchedCrc c)

/-- All sixty-four bits set: the 64-bit word against which a mask is
complemented (`!mask` on a `u64`). -/
def U64MAX : Nat := 2 ^ 64 - 1

/-- Little-endian byte decomposition of a 64-bit value
(`u64::to_le_bytes`). -/
def leBytes64 (n : Nat) : List Nat :=
  [n % 256, n / 2 ^ 8 % 256, n / 2 ^ 16 % 256, n / 2 ^ 24 % 256,
   n / 2 ^ 32 % 256, n / 2 ^ 40 % 256, n / 2 ^ 48 % 256, n / 2 ^ 56 % 256]

/-- Little-endian value of a byte sequence (first byte least significant). -/
def leVal (bytes : List Nat) : Nat :=
  bytes.foldr (fun b acc => b + 256 * acc) 0

/-- Device identifier: 64 bits, held as the little-endian integer value. -/
structure Rom where
  code : Nat
  deriving DecidableEq, Repr

/-- Modelled from the spec: a `Rom` constructed from a little-endian 64-bit
integer accumulated during search; the CRC invariant is validated and a
mismatch is a reportable error (`rom.try_into()` on a `u64`). -/
def Rom.fromU64 (n : Nat) : Except Error Rom :=
  match check (leBytes64 n) with
  | .ok _ => .ok ⟨n⟩
  | .error e => .error e

/-- Modelled from the spec: a `Rom` constructed from a raw 8-byte sequence
read from the transport; the CRC invariant is validated and a mismatch is a
reportable error (`rom_bytes.try_into()`). -/
def Rom.fromBytes (bytes : List Nat) : Except Error Rom :=
  match check bytes with
  | .ok _ => .ok ⟨leVal bytes⟩
  | .error e => .error e

/-- Temperature trigger registers of the scratchpad. -/
structure Triggers where
  high : Nat
  low : Nat

/-- Configuration register of the scratchpad, holding the resolution byte. -/
structure Configuration where
  resolution : Nat

/-- Scratchpad, from the spec's data model: two 1-byte temperature triggers
and one configuration byte. -/
structure Scratchpad where
  triggers : Triggers
  configuration : Configuration

/-- Modelled from the spec: the resolution byte must decode to one of the
device's defined bit-width settings; an undecodable value is a configuration
error. -/
def decodeResolution (b : Nat) : Except Error Nat :=
  if b = 0x1F ∨ b = 0x3F ∨ b = 0x5F ∨ b = 0x7F then .ok b
  else .error .configurationRegister

/-- Modelled from the spec: a `Scratchpad` constructed from a 9-byte block
(8 data bytes + trailing CRC); the CRC is validated before acceptance and the
resolution byte must decode. -/
def Scratchpad.fromBytes (bytes : List Nat) : Except Error Scratchpad :=
  match check bytes with
  | .error e => .error e
  | .ok _ =>
    match decodeResolution (bytes.getD 4 0) with
    | .error e => .error e
    | .ok res => .ok ⟨⟨bytes.getD 2 0, bytes.getD 3 0⟩, ⟨res⟩⟩

/-- ROM-level opcode, from `commands/rom.rs`. -/
def COMMAND_ALARM_SEARCH : Nat := 0xEC

/-- ROM-level opcode, from `commands/rom.rs`. -/
def COMMAND_ROM_READ : Nat := 0x33

/-- ROM-level opcode, from `commands/rom.rs`. -/
def COMMAND_ROM_MATCH : Nat := 0x55

/-- ROM-level opcode, from `commands/rom.rs`. -/
def COMMAND_ROM_SKIP : Nat := 0xCC

/-- ROM-level opcode, from `commands/rom.rs`. -/
def COMMAND_ROM_SEARCH : Nat := 0xF0

/-- Memory opcode, from `commands/memory.rs`. -/
def COMMAND_MEMORY_CONVERT : Nat := 0x44

/-- Memory opcode, from `commands/memory.rs`. -/
def COMMAND_MEMORY_RECALL : Nat := 0xB8

/-- Memory opcode, from `commands/memory.rs`. -/
def COMMAND_MEMORY_SCRATCHPAD_COPY : Nat := 0x48

/-- Memory opcode, from `commands/memory.rs`. -/
def COMMAND_MEMORY_SCRATCHPAD_READ : Nat := 0xBE

/-- Memory opcode, from `commands/memory.rs`. -/
def COMMAND_MEMORY_SCRATCHPAD_WRITE : Nat := 0x4E

/-- Duration of one read slot in microseconds, from `commands/memory.rs`. -/
def READ_SLOT_DURATION_MICROS : Nat := 70

/-- Retry budget of `MemoryRecall::execute`:
`(10000 / READ_SLOT_DURATION_MICROS) + 1`. -/
def maxRetries : Nat := 10000 / READ_SLOT_DURATION_MICROS + 1

/-- `WriteByte::execute` from `command.rs`: eight `write_bit` slots,
least-significant bit first, then `Ok(())` (the pin error is infallible). -/
def WriteByte (byte : Nat) (s : BusState) : Except Error Unit × BusState :=
  (.ok (), writeByteAux 8 byte s)

/-- `ReadByte::execute` from `command.rs`: eight `read_bit` slots assembled
least-significant bit first, then `Ok(byte)` (the pin error is
infallible). -/
def ReadByte (s : BusState) : Except Error Nat × BusState :=
  let r := read_byte s
  (.ok r.1, r.2)

/-- `RomMatch::execute` from `commands/rom.rs`: write the ROM Match opcode
then the 8 identifier bytes (little-endian wire format, modelled from the
spec for `Into<[u8; 8]>`). -/
def RomMatch (rom : Rom) (s : BusState) : BusState :=
  write_bytes (leBytes64 rom.code) (write_byte COMMAND_ROM_MATCH s)

/-- `RomSkip::execute` from `commands/rom.rs`: write the ROM Skip opcode. -/
def RomSkip (s : BusState) : BusState :=
  write_byte COMMAND_ROM_SKIP s

/-- `RomRead::execute` from `commands/rom.rs`: reset and require presence,
write the ROM Read opcode, read 8 bytes and construct the identifier. -/
def RomRead (s : BusState) : Except Error Rom × BusState :=
  let r := reset s
  if r.1 then
    let s := write_byte COMMAND_ROM_READ r.2
    let rb := read_bytes 8 s
    (Rom.fromBytes rb.1, rb.2)
  else (.error .noAttachedDevices, r.2)

/-- The 64-position bit loop of `RomSearch::execute`, one iteration per
remaining position: read the value bit and its complement, then branch as in
the source (`(0,0)` conflict: clear the bit and write 0; `(0,1)`: clear the
bit and write 0; `(1,0)`: set the bit and write 1; `(1,1)`: no devices). -/
def searchLoopE : Nat → Nat → Nat → BusState → Except Error Nat × BusState
  | 0, _, rom, s => (.ok rom, s)
  | n + 1, index, rom, s =>
    let mask := 2 ^ index
    let r1 := read_bit s
    let r2 := read_bit r1.2
    match r1.1, r2.1 with
    | false, false => searchLoopE n (index + 1) (rom &&& (U64MAX ^^^ mask)) (write_bit false r2.2)
    | false, true => searchLoopE n (index + 1) (rom &&& (U64MAX ^^^ mask)) (write_bit false r2.2)
    | true, false => searchLoopE n (index + 1) (rom ||| mask) (write_bit true r2.2)
    | true, true => (.error .noAttachedDevices, r2.2)

/-- The pass of `RomSearch::execute` before CRC validation: reset and require
presence, write the ROM Search opcode, then run the 64-bit loop starting at
index 0 with an all-zero accumulator. -/
def searchPassE (s : BusState) : Except Error Nat × BusState :=
  let r := reset s
  if r.1 then searchLoopE 64 0 0 (write_byte COMMAND_ROM_SEARCH r.2)
  else (.error .noAttachedDevices, r.2)

/-- `RomSearch::execute` from `commands/rom.rs`: the search pass followed by
`check(&rom.to_le_bytes())?` and `rom.try_into()`. -/
def RomSearchExecute (s : BusState) : Except Error Rom × BusState :=
  match searchPassE s with
  | (.ok rom, s) =>
    (match check (leBytes64 rom) with
     | .ok _ => Rom.fromU64 rom
     | .error e => .error e, s)
  | (.error e, s) => (.error e, s)

/-- The 64-position bit loop of `RomSearch::search`, carrying the conflict
mask: the `(0,0)` arm toggles the mask bit and branches on whether the whole
mask is then that single bit; the `(0,1)` arm sets the code bit and writes 0;
the `(1,0)` arm clears the code bit and writes 1; `(1,1)` aborts — exactly as
in the source. -/
def searchLoopS : Nat → Nat → Nat → Nat → BusState → (Except Error Nat × Nat) × BusState
  | 0, _, conflicts, code, s => ((.ok code, conflicts), s)
  | n + 1, index, conflicts, code, s =>
    let mask := 2 ^ index
    let r1 := read_bit s
    let r2 := read_bit r1.2
    match r1.1, r2.1 with
    | false, false =>
      let conflicts := conflicts ^^^ mask
      if conflicts ^^^ mask = 0 then
        searchLoopS n (index + 1) (conflicts ||| mask) (code &&& (U64MAX ^^^ mask))
          (write_bit false r2.2)
      else
        searchLoopS n (index + 1) (conflicts &&& (U64MAX ^^^ mask)) (code ||| mask)
          (write_bit true r2.2)
    | false, true =>
      searchLoopS n (index + 1) conflicts (code ||| mask) (write_bit false r2.2)
    | true, false =>
      searchLoopS n (index + 1) conflicts (code &&& (U64MAX ^^^ mask)) (write_bit true r2.2)
    | true, true => ((.error .noAttachedDevices, conflicts), r2.2)

/-- The pass of `RomSearch::search` before identifier construction: reset and
require presence, write the ROM Search opcode, then run the stateful 64-bit
loop with the carried conflict mask and an all-zero accumulator. -/
def searchPassS (conflicts : Nat) (s : BusState) : (Except Error Nat × Nat) × BusState :=
  let r := reset s
  if r.1 then searchLoopS 64 0 conflicts 0 (write_byte COMMAND_ROM_SEARCH r.2)
  else ((.error .noAttachedDevices, conflicts), r.2)

/-- `RomSearch::search` from `commands/rom.rs`: the stateful pass followed by
`code.try_into()`; the result carries the updated conflict mask. -/
def RomSearchSearch (conflicts : Nat) (s : BusState) : (Except Error Rom × Nat) × BusState :=
  match searchPassS conflicts s with
  | ((.ok code, conflicts), s) => ((Rom.fromU64 code, conflicts), s)
  | ((.error e, conflicts), s) => ((.error e, conflicts), s)

/-- The addressing step shared by the memory commands: `RomMatch` when an
identifier is supplied, `RomSkip` otherwise. -/
def addressing (rom : Option Rom) (s : BusState) : BusState :=
  match rom with
  | some r => RomMatch r s
  | none => RomSkip s

/-- `MemoryConvert::execute` from `commands/memory.rs`: reset (presence
answer discarded), address, write the Convert opcode, `Ok(())`. -/
def MemoryConvert (rom : Option Rom) (s : BusState) : Except Error Unit × BusState :=
  let r := reset s
  let s1 := addressing rom r.2
  let s2 := write_byte COMMAND_MEMORY_CONVERT s1
  (.ok (), s2)

/-- The polling loop of `MemoryRecall::execute`: up to the given number of
read slots, returning `Ok(())` at the first high bit and `Err(Timeout)` when
the budget is exhausted. -/
def recallLoop : Nat → BusState → Except Error Unit × BusState
  | 0, s => (.error .timeout, s)
  | n + 1, s =>
    let r := read_bit s
    if r.1 then (.ok (), r.2) else recallLoop n r.2

/-- `MemoryRecall::execute` from `commands/memory.rs`: reset (presence answer
discarded), address, write the Recall opcode, then poll `read_bit` up to
`maxRetries` times. -/
def MemoryRecall (rom : Option Rom) (s : BusState) : Except Error Unit × BusState :=
  let r := reset s
  let s1 := addressing rom r.2
  let s2 := write_byte COMMAND_MEMORY_RECALL s1
  recallLoop maxRetries s2

/-- `MemoryScratchpadCopy::execute` from `commands/memory.rs`: reset
(presence answer discarded), address, write the Scratchpad Copy opcode, wait
10000 microseconds, `Ok(())`. -/
def MemoryScratchpadCopy (rom : Option Rom) (s : BusState) : Except Error Unit × BusState :=
  let r := reset s
  let s1 := addressing rom r.2
  let s2 := write_byte COMMAND_MEMORY_SCRATCHPAD_COPY s1
  let s3 := wait 10000 s2
  (.ok (), s3)

/-- `MemoryScratchpadRead::execute` from `commands/memory.rs`: reset
(presence answer discarded), match the identifier, write the Scratchpad Read
opcode, read 9 bytes and construct the scratchpad. -/
def MemoryScratchpadRead (rom : Rom) (s : BusState) : Except Error Scratchpad × BusState :=
  let r := reset s
  let s1 := RomMatch rom r.2
  let s2 := write_byte COMMAND_MEMORY_SCRATCHPAD_READ s1
  let rb := read_bytes 9 s2
  (Scratchpad.fromBytes rb.1, rb.2)

/-- `MemoryScratchpadWrite::execute` from `commands/memory.rs`: reset
(presence answer discarded), address, write the Scratchpad Write opcode, then
the trigger-low byte, the trigger-high byte and the configuration byte, in
that source order. -/
def MemoryScratchpadWrite (rom : Option Rom) (sp : Scratchpad) (s : BusState) :
    Except Error Unit × BusState :=
  let r := reset s
  let s1 := addressing rom r.2
  let s2 := write_byte COMMAND_MEMORY_SCRATCHPAD_WRITE s1
  let s3 := write_byte sp.triggers.low s2
  let s4 := write_byte sp.triggers.high s3
  let s5 := write_byte sp.configuration.resolution s4
  (.ok (), s5)

/-- Events emitted by writing the low `n` bits of a byte value,
least-significant bit first. -/
def writeEventsAux : Nat → Nat → List Event
  | 0, _ => []
  | n + 1, b => Event.writeBit (b % 2 == 1) :: writeEventsAux n (b / 2)

/-- Events emitted by one `write_byte`. -/
def writeByteEvents (b : Nat) : List Event :=
  writeEventsAux 8 b

/-- Events emitted by one `write_bytes`. -/
def writeBytesEvents : List Nat → List Event
  | [] => []
  | b :: bs => writeByteEvents b ++ writeBytesEvents bs

/-- A bus whose stream answers with bit pairs `(1,0)` at position 0 (the
first read slot is high, all later slots low). -/
def busOneThenLow : BusState :=
  { presence := true, stream := fun n => n == 0, pos := 0, events := [] }

/-- A bus whose stream answers with bit pair `(0,1)` at position 0 (only the
second read slot is high). -/
def busZeroThenOne : BusState :=
  { presence := true, stream := fun n => n == 1, pos := 0, events := [] }

/-- A bus whose stream is constantly low: every bit pair reads `(0,0)`. -/
def busAllLow : BusState :=
  { presence := true, stream := fun _ => false, pos := 0, events := [] }

/-- A bus whose stream is constantly high: every bit pair reads `(1,1)`. -/
def busAllHigh : BusState :=
  { presence := true, stream := fun _ => true, pos := 0, events := [] }

/-- A bus with presence but an alternating stream, so that every bit pair
reads `(0,1)`. -/
def busPairsZero : BusState :=
  { presence := true, stream := fun n => n % 2 == 1, pos := 0, events := [] }

/-- A bus with presence and the complementary alternating stream, so that
every bit pair reads `(1,0)`. -/
def busPairsOne : BusState :=
  { presence := true, stream := fun n => n % 2 == 0, pos := 0, events := [] }

/-- A bus on which no device asserts presence and the line stays low. -/
def deadBus : BusState :=
  { presence := false, stream := fun _ => false, pos := 0, events := [] }

/-- A bus whose stream is high exactly at read slot 5. -/
def busHighAtFive : BusState :=
  { presence := true, stream := fun n => n == 5, pos := 0, events := [] }

/-- The loopback transport for a byte value: its stream replays, in order,
exactly the bits that `WriteByte` wrote for that byte on a fresh bus. -/
def loopback (b : Nat) : BusState :=
  { presence := true
    stream := fun n =>
      (((WriteByte b busAllLow).2.events.filterMap fun e =>
        match e with
        | .writeBit x => some x
        | _ => none).getD n false)
    pos := 0
    events := [] }

/-- A concrete scratchpad with distinct trigger bytes: high is 2, low is 1,
resolution is 0x7F. -/
def spHigh2Low1 : Scratchpad :=
  ⟨⟨2, 1⟩, ⟨0x7F⟩⟩

theorem writeByteAux_eq (n : Nat) : ∀ (b : Nat) (s : BusState),
    writeByteAux n b s = { s with events := s.events ++ writeEventsAux n b } := by
  induction n with
  | zero => intro b s; simp [writeByteAux, writeEventsAux]
  | succ n ih => intro b s; simp [writeByteAux, writeEventsAux, write_bit, ih]

theorem write_byte_eq (b : Nat) (s : BusState) :
    write_byte b s = { s with events := s.events ++ writeByteEvents b } :=
  writeByteAux_eq 8 b s

theorem write_bytes_eq : ∀ (bs : List Nat) (s : BusState),
    write_bytes bs s = { s with events := s.events ++ writeBytesEvents bs } := by
  intro bs
  induction bs with
  | nil => intro s; simp [write_bytes, writeBytesEvents]
  | cons b bs ih => intro s; simp [write_bytes, writeBytesEvents, write_byte_eq, ih]

theorem write_byte_pos (b : Nat) (s : BusState) : (write_byte b s).pos = s.pos := by
  simp [write_byte_eq]

theorem write_byte_stream (b : Nat) (s : BusState) : (write_byte b s).stream = s.stream := by
  simp [write_byte_eq]

theorem write_bytes_pos (bs : List Nat) (s : BusState) : (write_bytes bs s).pos = s.pos := by
  simp [write_bytes_eq]

theorem write_bytes_stream (bs : List Nat) (s : BusState) :
    (write_bytes bs s).stream = s.stream := by
  simp [write_bytes_eq]

theorem addressing_pos (ro : Option Rom) (s : BusState) : (addressing ro s).pos = s.pos := by
  cases ro <;> simp [addressing, RomMatch, RomSkip, write_byte_pos, write_bytes_pos]

theorem addressing_stream (ro : Option Rom) (s : BusState) :
    (addressing ro s).stream = s.stream := by
  cases ro <;> simp [addressing, RomMatch, RomSkip, write_byte_stream, write_bytes_stream]

theorem recallLoop_timeout_iff (n : Nat) : ∀ s : BusState,
    (recallLoop n s).1 = .error .timeout ↔ ∀ k, k < n → s.stream (s.pos + k) = false := by
  induction n with
  | zero =>
    intro s
    constructor
    · intro _ k hk; exact absurd hk (Nat.not_lt_zero k)
    · intro _; rfl
  | succ n ih =>
    intro s
    cases hb : s.stream s.pos with
    | true =>
      simp only [recallLoop, read_bit, hb, if_pos]
      constructor
      · intro h; cases h
      · intro h
        have h0 := h 0 (Nat.succ_pos n)
        rw [Nat.add_zero, hb] at h0
        cases h0
    | false =>
      have step : recallLoop (n + 1) s = recallLoop n { s with pos := s.pos + 1 } := by
        simp [recallLoop, read_bit, hb]
      rw [step, ih]
      constructor
      · intro hA k hk
        match k, hk with
        | 0, _ => rw [Nat.add_zero]; exact hb
        | k + 1, hk =>
          have := hA k (by omega)
          rw [show s.pos + 1 + k = s.pos + (k + 1) from by omega] at this
          exact this
      · intro hB k hk
        have := hB (k + 1) (by omega)
        rw [show s.pos + (k + 1) = s.pos + 1 + k from by omega] at this
        exact this

theorem recallLoop_first_high (n : Nat) : ∀ (s : BusState) (k : Nat), k < n →
    s.stream (s.pos + k) = true → (∀ j, j < k → s.stream (s.pos + j) = false) →
    (recallLoop n s).1 = .ok () ∧ (recallLoop n s).2.pos = s.pos + k + 1 := by
  induction n with
  | zero => intro s k hk _ _; exact absurd hk (Nat.not_lt_zero k)
  | succ n ih =>
    intro s k hk htrue hprev
    cases hb : s.stream s.pos with
    | true =>
      have hk0 : k = 0 := by
        by_contra hne
        have h0 := hprev 0 (by omega)
        rw [Nat.add_zero, hb] at h0
        cases h0
      subst hk0
      constructor
      · simp [recallLoop, read_bit, hb]
      · simp [recallLoop, read_bit, hb]
    | false =>
      have hkpos : k ≠ 0 := by
        intro h0; subst h0; rw [Nat.add_zero, hb] at htrue; cases htrue
      obtain ⟨m, rfl⟩ : ∃ m, k = m + 1 := ⟨k - 1, by omega⟩
      have step : recallLoop (n + 1) s = recallLoop n { s with pos := s.pos + 1 } := by
        simp [recallLoop, read_bit, hb]
      have htrue2 :
          ({ s with pos := s.pos + 1 } : BusState).stream
            (({ s with pos := s.pos + 1 } : BusState).pos + m) = true := by
        show s.stream (s.pos + 1 + m) = true
        rw [show s.pos + 1 + m = s.pos + (m + 1) from by omega]
        exact htrue
      have hprev2 : ∀ j, j < m →
          ({ s with pos := s.pos + 1 } : BusState).stream
            (({ s with pos := s.pos + 1 } : BusState).pos + j) = false := by
        intro j hj
        show s.stream (s.pos + 1 + j) = false
        rw [show s.pos + 1 + j = s.pos + (j + 1) from by omega]
        exact hprev (j + 1) (by omega)
      obtain ⟨ih1, ih2⟩ := ih { s with pos := s.pos + 1 } m (by omega) htrue2 hprev2
      rw [step]
      refine ⟨ih1, ?_⟩
      rw [ih2]
      show s.pos + 1 + m + 1 = s.pos + (m + 1) + 1
      omega

theorem recallLoop_never_nad (n : Nat) : ∀ s : BusState,
    (recallLoop n s).1 ≠ .error .noAttachedDevices := by
  induction n with
  | zero => intro s; simp [recallLoop]
  | succ n ih =>
    intro s
    cases hb : s.stream s.pos with
    | true => simp [recallLoop, read_bit, hb]
    | false =>
      simp only [recallLoop, read_bit, hb]
      simp only [Bool.false_eq_true, if_false]
      exact ih _

theorem scratchpadFromBytes_never_nad (bs : List Nat) :
    Scratchpad.fromBytes bs ≠ .error .noAttachedDevices := by
  simp only [Scratchpad.fromBytes, check, decodeResolution]
  split_ifs <;> simp

theorem check_eq_ok {bs : List Nat} (h : crc8 bs = 0) : check bs = .ok () := by
  simp [check, h]

theorem check_eq_error {bs : List Nat} (h : crc8 bs ≠ 0) :
    check bs = .error (.mismatchedCrc (crc8 bs)) := by
  simp only [check, if_neg h]

theorem romSearchExecute_fst (s : BusState) :
    (RomSearchExecute s).1 =
      match (searchPassE s).1 with
      | .ok v =>
        if crc8 (leBytes64 v) = 0 then .ok ⟨v⟩
        else .error (.mismatchedCrc (crc8 (leBytes64 v)))
      | .error e => .error e := by
  unfold RomSearchExecute
  rcases hp : searchPassE s with ⟨res, s1⟩
  cases res with
  | ok v =>
    show (match check (leBytes64 v) with
          | Except.ok _ => Rom.fromU64 v
          | Except.error e => Except.error e : Except Error Rom)
        = if crc8 (leBytes64 v) = 0 then Except.ok ⟨v⟩
          else Except.error (Error.mismatchedCrc (crc8 (leBytes64 v)))
    by_cases hc : crc8 (leBytes64 v) = 0
    · rw [check_eq_ok hc, if_pos hc]
      show Rom.fromU64 v = _
      unfold Rom.fromU64
      rw [check_eq_ok hc]
    · rw [check_eq_error hc, if_neg hc]
  | error e => rfl

theorem romSearchSearch_fst (c : Nat) (s : BusState) :
    ((RomSearchSearch c s).1).1 =
      match ((searchPassS c s).1).1 with
      | .ok v =>
        if crc8 (leBytes64 v) = 0 then .ok ⟨v⟩
        else .error (.mismatchedCrc (crc8 (leBytes64 v)))
      | .error e => .error e := by
  unfold RomSearchSearch
  rcases hp : searchPassS c s with ⟨⟨res, c2⟩, s2⟩
  cases res with
  | ok v =>
    show Rom.fromU64 v
        = if crc8 (leBytes64 v) = 0 then Except.ok ⟨v⟩
          else Except.error (Error.mismatchedCrc (crc8 (leBytes64 v)))
    unfold Rom.fromU64
    by_cases hc : crc8 (leBytes64 v) = 0
    · rw [check_eq_ok hc, if_pos hc]
    · rw [check_eq_error hc, if_neg hc]
  | error e => rfl

theorem romSearchExecute_ok {s : BusState} {v : Nat}
    (hp : (searchPassE s).1 = .ok v) (hc : crc8 (leBytes64 v) = 0) :
    (RomSearchExecute s).1 = .ok ⟨v⟩ := by
  rw [romSearchExecute_fst, hp]
  show (if crc8 (leBytes64 v) = 0 then (Except.ok ⟨v⟩ : Except Error Rom)
        else .error (.mismatchedCrc (crc8 (leBytes64 v)))) = .ok ⟨v⟩
  rw [if_pos hc]

theorem romSearchExecute_bad {s : BusState} {v : Nat}
    (hp : (searchPassE s).1 = .ok v) (hc : crc8 (leBytes64 v) ≠ 0) :
    (RomSearchExecute s).1 = .error (.mismatchedCrc (crc8 (leBytes64 v))) := by
  rw [romSearchExecute_fst, hp]
  show (if crc8 (leBytes64 v) = 0 then (Except.ok ⟨v⟩ : Except Error Rom)
        else .error (.mismatchedCrc (crc8 (leBytes64 v))))
      = .error (.mismatchedCrc (crc8 (leBytes64 v)))
  rw [if_neg hc]

theorem romSearchExecute_err {s : BusState} {e : Error}
    (hp : (searchPassE s).1 = .error e) : (RomSearchExecute s).1 = .error e := by
  rw [romSearchExecute_fst, hp]

theorem romSearchSearch_ok {c : Nat} {s : BusState} {v : Nat}
    (hp : ((searchPassS c s).1).1 = .ok v) (hc : crc8 (leBytes64 v) = 0) :
    ((RomSearchSearch c s).1).1 = .ok ⟨v⟩ := by
  rw [romSearchSearch_fst, hp]
  show (if crc8 (leBytes64 v) = 0 then (Except.ok ⟨v⟩ : Except Error Rom)
        else .error (.mismatchedCrc (crc8 (leBytes64 v)))) = .ok ⟨v⟩
  rw [if_pos hc]

theorem romSearchSearch_bad {c : Nat} {s : BusState} {v : Nat}
    (hp : ((searchPassS c s).1).1 = .ok v) (hc : crc8 (leBytes64 v) ≠ 0) :
    ((RomSearchSearch c s).1).1 = .error (.mismatchedCrc (crc8 (leBytes64 v))) := by
  rw [romSearchSearch_fst, hp]
  show (if crc8 (leBytes64 v) = 0 then (Except.ok ⟨v⟩ : Except Error Rom)
        else .error (.mismatchedCrc (crc8 (leBytes64 v))))
      = .error (.mismatchedCrc (crc8 (leBytes64 v)))
  rw [if_neg hc]

theorem romSearchSearch_err {c : Nat} {s : BusState} {e : Error}
    (hp : ((searchPassS c s).1).1 = .error e) : ((RomSearchSearch c s).1).1 = .error e := by
  rw [romSearchSearch_fst, hp]

theorem crc8_append_self (bytes : List Nat) : crc8 (bytes ++ [crc8 bytes]) = 0 := by
  unfold crc8
  rw [List.foldl_append]
  simp only [List.foldl_cons, List.foldl_nil]
  unfold crc8Update
  rw [Nat.xor_self]
  rfl

/-- Claim C1: the claim states that, in both `RomSearch::execute` and
`RomSearch::search`, a bit pair `(1,0)` records a 1 in the accumulated
identifier (and writes 1 back) and a pair `(0,1)` records a 0 (and writes 0
back).  This theorem evaluates one loop iteration of both functions at bit
position 0: `execute` behaves as claimed, but `search` records the
complement — on `(1,0)` it yields accumulated code 0 while writing 1 back,
and on `(0,1)` it yields code 1 while writing 0 back, contradicting the
claim and the function's own comments. -/
theorem claimC1 :
    ((searchLoopE 1 0 0 busOneThenLow).1 = .ok 1
      ∧ (searchLoopE 1 0 0 busOneThenLow).2.events = [Event.writeBit true])
    ∧ ((searchLoopE 1 0 0 busZeroThenOne).1 = .ok 0
      ∧ (searchLoopE 1 0 0 busZeroThenOne).2.events = [Event.writeBit false])
    ∧ ((searchLoopS 1 0 0 0 busOneThenLow).1.1 = .ok 0
      ∧ (searchLoopS 1 0 0 0 busOneThenLow).2.events = [Event.writeBit true])
    ∧ ((searchLoopS 1 0 0 0 busZeroThenOne).1.1 = .ok 1
      ∧ (searchLoopS 1 0 0 0 busZeroThenOne).2.events = [Event.writeBit false]) := by
  decide

/-- Claim C2: the claim states that the stateful search records every
conflict position in the conflict bitmask.  This theorem runs two loop
iterations of `RomSearch::search` from a fresh conflict mask on a bus that
reports a conflict pair `(0,0)` at positions 0 and 1: the master writes a
chosen bit back both times, but the resulting mask is 1 — position 1 is not
recorded (its mask bit is clear), because the code branches on whether the
whole mask was zero rather than on the bit at the position. -/
theorem claimC2 :
    (searchLoopS 2 0 0 0 busAllLow).1.2 = 1
    ∧ Nat.testBit ((searchLoopS 2 0 0 0 busAllLow).1.2) 1 = false
    ∧ (searchLoopS 2 0 0 0 busAllLow).2.events
        = [Event.writeBit false, Event.writeBit true] := by
  decide

/-- Claim C3: for every completed 64-bit pass, both `RomSearch::execute` and
`RomSearch::search` yield `Ok(rom)` only if the 8-byte little-endian
encoding of the accumulated value has zero CRC-8 residue, and when the pass
completes with a value whose residue is non-zero they return the
CRC-mismatch error carrying the computed byte. -/
theorem claimC3 (s : BusState) (c : Nat) :
    (∀ r : Rom, (RomSearchExecute s).1 = .ok r → crc8 (leBytes64 r.code) = 0)
    ∧ (∀ r : Rom, ((RomSearchSearch c s).1).1 = .ok r → crc8 (leBytes64 r.code) = 0)
    ∧ (∀ v : Nat, (searchPassE s).1 = .ok v → crc8 (leBytes64 v) ≠ 0 →
        (RomSearchExecute s).1 = .error (.mismatchedCrc (crc8 (leBytes64 v))))
    ∧ (∀ v : Nat, ((searchPassS c s).1).1 = .ok v → crc8 (leBytes64 v) ≠ 0 →
        ((RomSearchSearch c s).1).1 = .error (.mismatchedCrc (crc8 (leBytes64 v)))) := by
  refine ⟨?_, ?_, ?_, ?_⟩
  · intro r hr
    cases hp : (searchPassE s).1 with
    | ok v =>
      by_cases hc : crc8 (leBytes64 v) = 0
      · rw [romSearchExecute_ok hp hc] at hr
        have h2 : Rom.mk v = r := Except.ok.inj hr
        rw [← h2]
        exact hc
      · rw [romSearchExecute_bad hp hc] at hr
        exact absurd hr (by simp)
    | error e =>
      rw [romSearchExecute_err hp] at hr
      exact absurd hr (by simp)
  · intro r hr
    cases hp : ((searchPassS c s).1).1 with
    | ok v =>
      by_cases hc : crc8 (leBytes64 v) = 0
      · rw [romSearchSearch_ok hp hc] at hr
        have h2 : Rom.mk v = r := Except.ok.inj hr
        rw [← h2]
        exact hc
      · rw [romSearchSearch_bad hp hc] at hr
        exact absurd hr (by simp)
    | error e =>
      rw [romSearchSearch_err hp] at hr
      exact absurd hr (by simp)
  · intro v hv hc
    exact romSearchExecute_bad hv hc
  · intro v hv hc
    exact romSearchSearch_bad hv hc

/-- Witness for C3: on a bus with presence whose pairs all read `(0,1)`,
`RomSearch::execute` completes with accumulated value 0 and yields it, so
its CRC residue is zero; on the complementary bus whose pairs all read
`(1,0)`, the pass accumulates all-ones in `execute` and the stateful
`search` accumulates all-ones on the `(0,1)` bus, and both reject with the
CRC-mismatch error. -/
theorem claimC3_witness :
    crc8 (leBytes64 0) = 0
    ∧ (RomSearchExecute busPairsOne).1
        = .error (.mismatchedCrc (crc8 (leBytes64 U64MAX)))
    ∧ ((RomSearchSearch 0 busPairsZero).1).1
        = .error (.mismatchedCrc (crc8 (leBytes64 U64MAX))) :=
  ⟨(claimC3 busPairsZero 0).1 ⟨0⟩ (by decide),
   (claimC3 busPairsOne 0).2.2.1 U64MAX (by decide) (by decide),
   (claimC3 busPairsZero 0).2.2.2 U64MAX (by decide) (by decide)⟩

/-- Counterexample for Claim C4: on a bus where no device asserts presence,
`MemoryConvert::execute` (with no identifier) succeeds with `Ok(())` instead
of returning the no-attached-devices error, because the memory commands
discard the presence answer of the reset they issue. -/
theorem claimC4_counterexample :
    (MemoryConvert .none deadBus).1 = .ok ()
    ∧ ¬ (MemoryConvert .none deadBus).1 = .error .noAttachedDevices := by
  decide

/-- Claim C4 (amended): on a bus with no presence, `reset` reports false and
the ROM commands `RomRead` and `RomSearch` (both variants) return the
no-attached-devices error; the memory commands issue a reset but ignore the
presence answer and proceed — `MemoryConvert`, `MemoryScratchpadCopy` and
`MemoryScratchpadWrite` return `Ok(())`, and `MemoryRecall` and
`MemoryScratchpadRead` never return the no-attached-devices error. -/
theorem claimC4 (s : BusState) (c : Nat) (r : Rom) (sp : Scratchpad)
    (hp : s.presence = false) :
    (reset s).1 = false
    ∧ (RomRead s).1 = .error .noAttachedDevices
    ∧ (RomSearchExecute s).1 = .error .noAttachedDevices
    ∧ ((RomSearchSearch c s).1).1 = .error .noAttachedDevices
    ∧ (MemoryConvert .none s).1 = .ok ()
    ∧ (MemoryConvert (.some r) s).1 = .ok ()
    ∧ (MemoryScratchpadCopy .none s).1 = .ok ()
    ∧ (MemoryScratchpadCopy (.some r) s).1 = .ok ()
    ∧ (MemoryScratchpadWrite .none sp s).1 = .ok ()
    ∧ (MemoryRecall .none s).1 ≠ .error .noAttachedDevices
    ∧ (MemoryScratchpadRead r s).1 ≠ .error .noAttachedDevices := by
  have hpassE : (searchPassE s).1 = .error .noAttachedDevices := by
    simp [searchPassE, reset, hp]
  have hpassS : ((searchPassS c s).1).1 = .error .noAttachedDevices := by
    simp [searchPassS, reset, hp]
  refine ⟨hp, ?_, ?_, ?_, rfl, rfl, rfl, rfl, rfl, ?_, ?_⟩
  · simp [RomRead, reset, hp]
  · exact romSearchExecute_err hpassE
  · exact romSearchSearch_err hpassS
  · exact recallLoop_never_nad maxRetries _
  · exact scratchpadFromBytes_never_nad _

/-- Witness for the amended Claim C4 at a concrete dead bus, identifier 0,
conflict mask 0 and a concrete scratchpad. -/
theorem claimC4_witness :
    (reset deadBus).1 = false
    ∧ (RomRead deadBus).1 = .error .noAttachedDevices
    ∧ (RomSearchExecute deadBus).1 = .error .noAttachedDevices
    ∧ ((RomSearchSearch 0 deadBus).1).1 = .error .noAttachedDevices
    ∧ (MemoryConvert .none deadBus).1 = .ok ()
    ∧ (MemoryConvert (.some ⟨0⟩) deadBus).1 = .ok ()
    ∧ (MemoryScratchpadCopy .none deadBus).1 = .ok ()
    ∧ (MemoryScratchpadCopy (.some ⟨0⟩) deadBus).1 = .ok ()
    ∧ (MemoryScratchpadWrite .none spHigh2Low1 deadBus).1 = .ok ()
    ∧ (MemoryRecall .none deadBus).1 ≠ .error .noAttachedDevices
    ∧ (MemoryScratchpadRead ⟨0⟩ deadBus).1 ≠ .error .noAttachedDevices :=
  claimC4 deadBus 0 ⟨0⟩ spHigh2Low1 rfl

/-- Claim C5: the claim states that `MemoryScratchpadWrite` transmits, after
the 0x4E opcode, the trigger-high byte, then the trigger-low byte, then the
configuration byte.  This theorem evaluates the command on a scratchpad with
trigger-high 2 and trigger-low 1: the emitted trace carries the data bytes in
the order 1 (low), 2 (high), configuration — the low byte is transmitted
first, contradicting the claimed order (the byte count of three data bytes is
as claimed). -/
theorem claimC5 :
    (MemoryScratchpadWrite .none spHigh2Low1 busAllLow).2.events
      = [Event.reset true] ++ writeByteEvents 0xCC ++ writeByteEvents 0x4E
        ++ writeByteEvents 1 ++ writeByteEvents 2 ++ writeByteEvents 0x7F := by
  decide

/-- Claim C6: whenever the two bits read at a bit position are `(1,1)`, both
search loops return the no-attached-devices error at once: the bus state has
only advanced past the two reads (so no bit was written back for that
position and the trace is unchanged) and no accumulated value is yielded.
This covers any position of the pass, in `RomSearch::execute` and
`RomSearch::search` alike. -/
theorem claimC6 (n index rom : Nat) (s : BusState) (hn : n ≠ 0)
    (h1 : s.stream s.pos = true) (h2 : s.stream (s.pos + 1) = true) :
    searchLoopE n index rom s
      = (.error .noAttachedDevices, { s with pos := s.pos + 2 })
    ∧ ∀ conflicts code : Nat,
        searchLoopS n index conflicts code s
          = ((.error .noAttachedDevices, conflicts), { s with pos := s.pos + 2 }) := by
  obtain ⟨m, rfl⟩ : ∃ m, n = m + 1 := ⟨n - 1, by omega⟩
  constructor
  · simp [searchLoopE, read_bit, h1, h2]
  · intro conflicts code
    simp [searchLoopS, read_bit, h1, h2]

/-- Witness for C6: the all-high bus at position 0 of a fresh pass. -/
theorem claimC6_witness :
    searchLoopE 1 0 0 busAllHigh
      = (.error .noAttachedDevices, { busAllHigh with pos := busAllHigh.pos + 2 })
    ∧ searchLoopS 1 0 0 0 busAllHigh
      = ((.error .noAttachedDevices, 0), { busAllHigh with pos := busAllHigh.pos + 2 }) :=
  ⟨(claimC6 1 0 0 busAllHigh (by decide) rfl rfl).1,
   (claimC6 1 0 0 busAllHigh (by decide) rfl rfl).2 0 0⟩

/-- Claim C7: for every byte value, running `ReadByte` against the loopback
transport that replays the eight bits written by `WriteByte` for that byte
(in the same order) returns `Ok` of the original byte — both commands move
bits least-significant first, so the composition is the identity on bytes. -/
theorem claimC7 : ∀ b : Nat, b < 256 → (ReadByte (loopback b)).1 = .ok b := by
  decide

/-- Witness for C7 at byte 0xA5. -/
theorem claimC7_witness : (ReadByte (loopback 0xA5)).1 = .ok 0xA5 :=
  claimC7 0xA5 (by decide)

/-- Claim C8: `MemoryRecall` returns the timeout error precisely when every
one of the `maxRetries = (10000 / 70) + 1 = 143` polled read slots reads
false, and when some slot within the budget reads true it returns `Ok(())`
as soon as the first such slot is consumed (the read cursor stops right
after it). -/
theorem claimC8 (ro : Option Rom) (s : BusState) :
    ((MemoryRecall ro s).1 = .error .timeout ↔
      ∀ k, k < maxRetries → s.stream (s.pos + k) = false)
    ∧ (∀ k, k < maxRetries → s.stream (s.pos + k) = true →
        (∀ j, j < k → s.stream (s.pos + j) = false) →
        (MemoryRecall ro s).1 = .ok () ∧ (MemoryRecall ro s).2.pos = s.pos + k + 1)
    ∧ maxRetries = 143 := by
  have hq : MemoryRecall ro s
      = recallLoop maxRetries (write_byte COMMAND_MEMORY_RECALL (addressing ro (reset s).2)) :=
    rfl
  have hpos : (write_byte COMMAND_MEMORY_RECALL (addressing ro (reset s).2)).pos = s.pos := by
    rw [write_byte_pos, addressing_pos]
    rfl
  have hstream :
      (write_byte COMMAND_MEMORY_RECALL (addressing ro (reset s).2)).stream = s.stream := by
    rw [write_byte_stream, addressing_stream]
    rfl
  refine ⟨?_, ?_, rfl⟩
  · rw [hq, recallLoop_timeout_iff, hstream, hpos]
  · intro k hk ht hj
    have hmain := recallLoop_first_high maxRetries
      (write_byte COMMAND_MEMORY_RECALL (addressing ro (reset s).2)) k hk
      (by rw [hstream, hpos]; exact ht)
      (fun j hlt => by rw [hstream, hpos]; exact hj j hlt)
    refine ⟨by rw [hq]; exact hmain.1, ?_⟩
    rw [hq, hmain.2, hpos]

/-- Witness for C8: on the bus whose line goes high exactly at read slot 5
the command succeeds with the cursor at slot 6, and on the dead bus every
slot reads false and the command times out. -/
theorem claimC8_witness :
    (MemoryRecall .none busHighAtFive).1 = .ok ()
    ∧ (MemoryRecall .none busHighAtFive).2.pos = 6
    ∧ (MemoryRecall .none deadBus).1 = .error .timeout := by
  refine ⟨?_, ?_, ?_⟩
  · exact ((claimC8 .none busHighAtFive).2.1 5 (by decide) (by decide)
      (by decide)).1
  · exact ((claimC8 .none busHighAtFive).2.1 5 (by decide) (by decide)
      (by decide)).2
  · exact ((claimC8 .none deadBus).1).mpr (by decide)

/-- Claim C9: appending the CRC-8 byte computed over a valid 7-byte
identifier prefix and running `check` over the resulting 8 bytes yields the
zero residue, so the sequence is accepted (the round-trip law of the
reflected Dallas/Maxim CRC-8). -/
theorem claimC9 (msg : List Nat) (hlen : msg.length = 7)
    (hbytes : ∀ b ∈ msg, b < 256) :
    check (msg ++ [crc8 msg]) = .ok () := by
  rw [check_eq_ok (crc8_append_self msg)]

/-- Witness for C9 at a concrete 7-byte prefix. -/
theorem claimC9_witness :
    check ([0x28, 1, 2, 3, 4, 5, 6] ++ [crc8 [0x28, 1, 2, 3, 4, 5, 6]]) = .ok () :=
  claimC9 [0x28, 1, 2, 3, 4, 5, 6] (by decide) (by decide)

/-- Claim C10: `MemoryScratchpadCopy` never returns an error: for every bus
state it returns `Ok(())`, and its trace is exactly a reset, the addressing
bytes (`RomSkip` when no identifier is given, `RomMatch` with the 8
identifier bytes otherwise), the 0x48 copy opcode, and a fixed wait of 10000
microseconds — in particular no polling and no timeout, unlike
`MemoryRecall`. -/
theorem claimC10 (ro : Option Rom) (r : Rom) (s : BusState) :
    (MemoryScratchpadCopy ro s).1 = .ok ()
    ∧ (MemoryScratchpadCopy .none s).2.events
        = s.events ++ [Event.reset s.presence] ++ writeByteEvents COMMAND_ROM_SKIP
          ++ writeByteEvents COMMAND_MEMORY_SCRATCHPAD_COPY ++ [Event.wait 10000]
    ∧ (MemoryScratchpadCopy (.some r) s).2.events
        = s.events ++ [Event.reset s.presence] ++ writeByteEvents COMMAND_ROM_MATCH
          ++ writeBytesEvents (leBytes64 r.code)
          ++ writeByteEvents COMMAND_MEMORY_SCRATCHPAD_COPY ++ [Event.wait 10000] := by
  refine ⟨rfl, ?_, ?_⟩
  · simp [MemoryScratchpadCopy, addressing, RomSkip, reset, wait, write_byte_eq,
      List.append_assoc]
  · simp [MemoryScratchpadCopy, addressing, RomMatch, reset, wait, write_byte_eq,
      write_bytes_eq, List.append_assoc]

end OneWire
